import Mathlib

/-!
# Verification of oslo.serialization against its specification

Shallow embedding of the two core modules of the `oslo.serialization`
repository:

* `oslo_serialization/msgpackutils.py` — the `HandlerRegistry` (extension
  handler registry with reserved/application identifier ranges, freezing,
  override chains) and the `_serializer` / `_unserializer` hooks that the
  binary codec installs into the underlying msgpack packer.
* `oslo_serialization/jsonutils.py` — the recursive `to_primitive`
  reduction with its classification order, depth ceiling and fallback
  policy.

Machine integers are modelled as `Int`/`Nat` (Python integers are
unbounded, so no wraparound modelling is needed).  Python exceptions are
modelled with `Except String` (for `to_primitive` and `_serializer`) or by
returning the untouched state together with an `Option String` error (for
`HandlerRegistry.register`, whose checks in the source all happen before
any mutation).
-/

set_option maxHeartbeats 1000000

/-! ## msgpackutils: objects, handlers, extension records

The binary codec routes arbitrary Python objects through handlers.  For
the purposes of the registry and the `_serializer`/`_unserializer` hooks
only the runtime type name of such an object matters (it is consulted by
`isinstance` matching and quoted in the no-handler error); we model an
object as its type name plus an opaque numeric payload.  `isinstance`
subclass matching is abstracted to membership of the type name in the
handler's `handles` tuple. -/

/-- A Python object as seen by the msgpack codec hooks: its runtime type
name (`type(obj).__name__`) and an opaque payload distinguishing
instances. -/
structure Obj where
  typeName : String
  payload : Nat
deriving Repr, DecidableEq

/-- `msgpack.ExtType(code, data)`: a tagged extension record; `data` is a
byte string, modelled as a list of byte values. -/
structure ExtTypeRec where
  code : Int
  data : List Nat
deriving Repr, DecidableEq

/-- A msgpack extension handler (the `HandlerProtocol` of the source):
an `identity` it claims, the tuple of types it `handles`, and its
`serialize`/`deserialize` pair. -/
structure Handler where
  identity : Int
  handles : List String
  serialize : Obj → List Nat
  deserialize : List Nat → Obj

/-! ## msgpackutils: HandlerRegistry

`HandlerRegistry._handlers` is a Python dict from identity to a list of
handlers.  Python dicts preserve insertion order, so we model the dict as
an association list in insertion order (keys unique for registries built
through `register`). -/

/-- `d.get(k)` on the association-list model of a Python dict. -/
def dictGet (d : List (Int × List Handler)) (k : Int) : Option (List Handler) :=
  match d with
  | [] => Option.none
  | (k', v) :: rest => if k' = k then some v else dictGet rest k

/-- `d[k] = v` on an existing key of the association-list model of a
Python dict (keeps the key's insertion position, as Python does). -/
def dictSet (d : List (Int × List Handler)) (k : Int) (v : List Handler) :
    List (Int × List Handler) :=
  match d with
  | [] => []
  | (k', v') :: rest =>
      if k' = k then (k', v) :: rest else (k', v') :: dictSet rest k v

/-- `HandlerRegistry`: dict of handler chains, running handler count and
frozen flag (`__init__`, lines 147–150 of `msgpackutils.py`). -/
structure HandlerRegistry where
  handlers : List (Int × List Handler)
  num_handlers : Nat
  frozen : Bool

/-- The empty registry produced by `HandlerRegistry.__init__`. -/
def HandlerRegistry.empty : HandlerRegistry :=
  { handlers := [], num_handlers := 0, frozen := false }

/-- `reserved_extension_range = Interval(0, 32)` lower bound. -/
def reservedMin : Int := 0

/-- `reserved_extension_range = Interval(0, 32)` upper bound. -/
def reservedMax : Int := 32

/-- `non_reserved_extension_range = Interval(33, 127)` lower bound. -/
def nonReservedMin : Int := 33

/-- `non_reserved_extension_range = Interval(33, 127)` upper bound. -/
def nonReservedMax : Int := 127

/-- `HandlerRegistry.register(handler, reserved, override)`.

The source raises `ValueError` in three places, all before any mutation,
so a failure is modelled as returning the unchanged registry together
with `some` error message; success returns the updated registry and
`none`. -/
def HandlerRegistry.register (r : HandlerRegistry) (handler : Handler)
    (reserved : Bool) (override : Bool) :
    HandlerRegistry × Option String :=
  if r.frozen then
    (r, some "Frozen handler registry can't be modified")
  else
    let okMin : Int := if reserved then reservedMin else nonReservedMin
    let okMax : Int := if reserved then reservedMax else nonReservedMax
    let ident := handler.identity
    if ident < okMin then
      (r, some "Handler identity must be greater or equal to the minimum")
    else if ident > okMax then
      (r, some "Handler identity must be less than or equal to the maximum")
    else
      match dictGet r.handlers ident with
      | some existing_handlers =>
          if override then
            -- Insert at the front so that overrides get selected before
            -- whatever existed before the override...
            ({ handlers := dictSet r.handlers ident (handler :: existing_handlers),
               num_handlers := r.num_handlers + 1,
               frozen := r.frozen }, Option.none)
          else
            (r, some "Already registered handler(s) with this identity")
      | Option.none =>
          ({ handlers := r.handlers ++ [(ident, [handler])],
             num_handlers := r.num_handlers + 1,
             frozen := r.frozen }, Option.none)

/-- `len(registry)`: the running count of all registered handler
instances, override chains included. -/
def HandlerRegistry.length (r : HandlerRegistry) : Nat :=
  r.num_handlers

/-- `identity in registry` (`__contains__`). -/
def HandlerRegistry.containsId (r : HandlerRegistry) (identity : Int) : Bool :=
  (dictGet r.handlers identity).isSome

/-- `HandlerRegistry.get(identity)`: the front (highest-priority) handler
of the identity's chain, or `None`.  The source tests the looked-up list
for truthiness, so an empty chain also yields `None`. -/
def HandlerRegistry.get (r : HandlerRegistry) (identity : Int) : Option Handler :=
  match dictGet r.handlers identity with
  | some (h :: _) => some h
  | some [] => Option.none
  | Option.none => Option.none

/-- First handler in a list of chains whose `handles` matches the
object's runtime type (`isinstance` abstracted to type-name
membership). -/
def matchIn (chains : List (Int × List Handler)) (obj : Obj) : Option Handler :=
  match chains with
  | [] => Option.none
  | (_, hs) :: rest =>
      match hs.find? (fun h => obj.typeName ∈ h.handles) with
      | some h => some h
      | Option.none => matchIn rest obj

/-- `HandlerRegistry.match(obj)`: scan all chains in dict order and
return the first handler whose `handles` matches the object. -/
def HandlerRegistry.matchObj (r : HandlerRegistry) (obj : Obj) : Option Handler :=
  matchIn r.handlers obj

/-! ## msgpackutils: the codec hooks -/

/-- The `default=` hook `_serializer(registry, obj)` installed by
`dumps`/`dump`: called by the underlying packer on every value it cannot
natively represent; raises `ValueError` naming the runtime type when no
handler matches, otherwise wraps the handler's output as an extension
record tagged with the handler's identity. -/
def msgSerializer (registry : HandlerRegistry) (obj : Obj) : Except String ExtTypeRec :=
  match registry.matchObj obj with
  | Option.none =>
      Except.error
        ("No serialization handler registered for type '" ++ obj.typeName ++ "'")
  | some handler =>
      Except.ok { code := handler.identity, data := handler.serialize obj }

/-- Result of decoding one extension record: either a reconstructed
object or the verbatim opaque record. -/
inductive Decoded where
  | obj (o : Obj)
  | ext (e : ExtTypeRec)
deriving DecidableEq

/-- The `ext_hook` `_unserializer(registry, code, data)` installed by
`loads`/`load`: unknown identities are returned verbatim as opaque
`ExtType` records (never an error), known identities are routed to the
front handler's deserializer. -/
def msgUnserializer (registry : HandlerRegistry) (code : Int) (data : List Nat) :
    Decoded :=
  match registry.get code with
  | Option.none => Decoded.ext { code := code, data := data }
  | some handler => Decoded.obj (handler.deserialize data)

/-! ## Hexadecimal rendering (uuid payloads)

`uuid.UUID` values are 128-bit integers; `uuid.hex` is their 32-digit
lowercase hexadecimal form and `str(uuid)` the dashed 8-4-4-4-12 form. -/

/-- Lowercase hexadecimal digit character for `d < 16`. -/
def hexDigitChar (d : Nat) : Char :=
  if d < 10 then Char.ofNat (48 + d) else Char.ofNat (87 + d)

/-- Numeric value of a lowercase hexadecimal digit character. -/
def hexCharVal (c : Char) : Nat :=
  if c.toNat < 97 then c.toNat - 48 else c.toNat - 87

/-- Is `c` a lowercase hexadecimal digit (`0`–`9`, `a`–`f`)? -/
def isLowerHexDigit (c : Char) : Bool :=
  c.isDigit || ('a' ≤ c && c ≤ 'f')

/-- Fixed-width zero-padded hexadecimal rendering (`'%032x' % n` when the
width is 32 and `n < 16^32`). -/
def padHexDigits : Nat → Nat → List Char
  | 0, _ => []
  | w + 1, n => padHexDigits w (n / 16) ++ [hexDigitChar (n % 16)]

/-- `str(uuid_value)`: the canonical dashed 8-4-4-4-12 hexadecimal form. -/
def uuidDashedStr (n : Nat) : String :=
  let h := padHexDigits 32 n
  ⟨h.take 8 ++ '-' :: (h.drop 8).take 4 ++ '-' :: (h.drop 12).take 4 ++
    '-' :: (h.drop 16).take 4 ++ '-' :: h.drop 20⟩

/-! ## jsonutils: dates and times

`datetime.datetime` and `datetime.date` values as the field records
`strftime` consumes.  The source formats them with
`timeutils.PERFECT_TIME_FORMAT = '%Y-%m-%dT%H:%M:%S.%f'` (from the
external `oslo_utils` package) and `_ISO8601_DATE_FORMAT = '%Y-%m-%d'`.
Neither format string has an offset directive, so no timezone offset is
ever emitted.  The numeric directives produce fixed-width zero-padded
decimal fields for every in-range datetime field. -/

/-- A `datetime.datetime` value (naive; the used format strings never
render the timezone). -/
structure PyDateTime where
  year : Nat
  month : Nat
  day : Nat
  hour : Nat
  minute : Nat
  second : Nat
  microsecond : Nat
deriving DecidableEq

/-- A `datetime.date` value. -/
structure PyDate where
  year : Nat
  month : Nat
  day : Nat
deriving DecidableEq

/-- Fixed-width zero-padded decimal rendering, as `strftime`'s numeric
directives produce for in-range fields. -/
def padDigits : Nat → Nat → List Char
  | 0, _ => []
  | w + 1, n => padDigits w (n / 10) ++ [Char.ofNat (48 + n % 10)]

/-- `padDigits` packaged as a string. -/
def padNum (w n : Nat) : String :=
  ⟨padDigits w n⟩

/-- `value.strftime(timeutils.PERFECT_TIME_FORMAT)` with
`PERFECT_TIME_FORMAT = '%Y-%m-%dT%H:%M:%S.%f'`. -/
def perfectTimeFormat (dt : PyDateTime) : String :=
  padNum 4 dt.year ++ "-" ++ padNum 2 dt.month ++ "-" ++ padNum 2 dt.day ++ "T" ++
    padNum 2 dt.hour ++ ":" ++ padNum 2 dt.minute ++ ":" ++ padNum 2 dt.second ++
    "." ++ padNum 6 dt.microsecond

/-- `value.strftime(_ISO8601_DATE_FORMAT)` with
`_ISO8601_DATE_FORMAT = '%Y-%m-%d'`. -/
def isoDateFormat (d : PyDate) : String :=
  padNum 4 d.year ++ "-" ++ padNum 2 d.month ++ "-" ++ padNum 2 d.day

/-! ## jsonutils: the value universe of `to_primitive`

One constructor per classification case of `to_primitive` that the
claims exercise.  Notes on the modelling:

* `bytes` carries the text its bytes decode to under the requested
  encoding (the `UnicodeDecodeError` path for undecodable bytes is not
  modelled; no claim touches it).
* `exc` carries the `repr` of an exception value.
* `itemsObj` is a non-dict object exposing an `items()` accessor whose
  pairs are the stored entries (`dict(value.items())` builds exactly the
  dict of those entries).
* `inst` is an object with none of the other capabilities but with a
  `__dict__` attribute mapping (the entries); this is the only
  constructor that can fall through every classification rule.
* Floats, modules/classes/functions and the other "nasty" introspectable
  values, IO streams and the optional netaddr/ipaddress types are not
  modelled; no claim depends on them.
-/

inductive PyValue where
  | none
  | bool (b : Bool)
  | int (n : Int)
  | str (s : String)
  | bytes (decoded : String)
  | datetime (dt : PyDateTime)
  | date (d : PyDate)
  | uuid (n : Nat)
  | exc (r : String)
  | count (start step : Int)
  | dict (entries : List (PyValue × PyValue))
  | list (elems : List PyValue)
  | itemsObj (entries : List (PyValue × PyValue))
  | inst (attrs : List (PyValue × PyValue))

/-- `str(itertools.count(start, step))`: Python renders the step only
when it differs from 1. -/
def countRepr (start step : Int) : String :=
  if step = 1 then "count(" ++ toString start ++ ")"
  else "count(" ++ toString start ++ ", " ++ toString step ++ ")"

/-- Python `str(value)` for the values the reducer can hand to the
*default* fallback.  Container, items-accessor and instance values have
address-dependent string forms in Python and are abstracted to fixed
placeholders; no claim depends on those cases (the default fallback is
only exercised on `count` values by the claims). -/
def pyStr : PyValue → String
  | .none => "None"
  | .bool b => if b then "True" else "False"
  | .int n => toString n
  | .str s => s
  | .bytes s => "b" ++ "'" ++ s ++ "'"
  | .datetime dt => perfectTimeFormat dt
  | .date d => isoDateFormat d
  | .uuid n => uuidDashedStr n
  | .exc r => r
  | .count start step => countRepr start step
  | .dict _ => "<dict>"
  | .list _ => "<list>"
  | .itemsObj _ => "<items object>"
  | .inst _ => "<instance object>"

/-- Python `repr(value)` as used in the `Cannot convert {value!r} to
primitive` message.  In the model the message is only ever produced for
`inst` values, whose Python repr (`<X object at 0x...>`) is
address-dependent and abstracted to a placeholder. -/
def pyRepr : PyValue → String
  | .str s => "'" ++ s ++ "'"
  | .inst _ => "<instance object>"
  | v => pyStr v

/-- The `ValueError` message of `to_primitive`'s final case. -/
def cannotConvertMsg (v : PyValue) : String :=
  "Cannot convert " ++ pyRepr v ++ " to primitive"

/-- Lines 106–108: `orig_fallback = fallback; if fallback is None:
fallback = str`.  This is the defaulted fallback used by the `count`
and nasty-type branches. -/
def defaultedFallback (fallback : Option (PyValue → PyValue)) (v : PyValue) : PyValue :=
  match fallback with
  | Option.none => .str (pyStr v)
  | some f => f v

/-- Termination penalty: the `items`-accessor and instance branches of
`to_primitive` recurse on a freshly built dict of the same entries (same
size), so they carry an extra lexicographic weight. -/
def pvPenalty : PyValue → Nat
  | .itemsObj _ => 1
  | .inst _ => 1
  | _ => 0

mutual

/-- `jsonutils.to_primitive(value, convert_instances, convert_datetime,
level, max_depth, encoding, fallback)`.

The classification order follows the source (lines 123–203): simple
types, bytes, datetime, date, uuid, exception, `itertools.count` (routed
to the defaulted fallback), then — only for the container-like values
that survive those checks — the depth ceiling (`level > max_depth`
returns `None`), the dict/items/iterable/instance dispatch, and finally
the `ValueError`/original-fallback case.  Python dicts are modelled as
entry lists (the comprehension's insertion order); the `encoding`
parameter is inert because `bytes` carries its decoded text; the
`xmlrpclib.DateTime` normalization, the nasty-type tests and the
`TypeError` catch concern values outside the modelled universe.  The
recursive calls pass `level` unchanged for dict entries and list
elements, and `level + 1` for the dict built from an items accessor or
an instance `__dict__`, exactly as the source's `functools.partial`
rebinding does. -/
def to_primitive (convert_instances convert_datetime : Bool)
    (level max_depth : Nat) (fallback : Option (PyValue → PyValue)) :
    PyValue → Except String PyValue
  | .none => Except.ok .none
  | .bool b => Except.ok (.bool b)
  | .int n => Except.ok (.int n)
  | .str s => Except.ok (.str s)
  | .bytes decoded => Except.ok (.str decoded)
  | .datetime dt =>
      if convert_datetime then Except.ok (.str (perfectTimeFormat dt))
      else Except.ok (.datetime dt)
  | .date d =>
      if convert_datetime then Except.ok (.str (isoDateFormat d))
      else Except.ok (.date d)
  | .uuid n => Except.ok (.str (uuidDashedStr n))
  | .exc r => Except.ok (.str r)
  | .count start step =>
      Except.ok (defaultedFallback fallback (.count start step))
  | .dict es =>
      if level > max_depth then Except.ok .none
      else do
        let es' ← reduceEntries convert_instances convert_datetime level max_depth fallback es
        Except.ok (.dict es')
  | .itemsObj es =>
      if level > max_depth then Except.ok .none
      else
        to_primitive convert_instances convert_datetime (level + 1) max_depth
          fallback (.dict es)
  | .list xs =>
      if level > max_depth then Except.ok .none
      else do
        let xs' ← reduceList convert_instances convert_datetime level max_depth fallback xs
        Except.ok (.list xs')
  | .inst attrs =>
      if level > max_depth then Except.ok .none
      else if convert_instances then
        to_primitive convert_instances convert_datetime (level + 1) max_depth
          fallback (.dict attrs)
      else
        match fallback with
        | Option.none => Except.error (cannotConvertMsg (.inst attrs))
        | some f => Except.ok (f (.inst attrs))
termination_by v => (sizeOf v, pvPenalty v)
decreasing_by
  all_goals simp [Prod.lex_def, pvPenalty]

/-- The dict comprehension `{recursive(k): recursive(v) for k, v in
value.items()}`: each key and value reduced at the *same* level. -/
def reduceEntries (convert_instances convert_datetime : Bool)
    (level max_depth : Nat) (fallback : Option (PyValue → PyValue)) :
    List (PyValue × PyValue) → Except String (List (PyValue × PyValue))
  | [] => Except.ok []
  | (k, v) :: rest => do
      let k' ← to_primitive convert_instances convert_datetime level max_depth fallback k
      let v' ← to_primitive convert_instances convert_datetime level max_depth fallback v
      let rest' ← reduceEntries convert_instances convert_datetime level max_depth fallback rest
      Except.ok ((k', v') :: rest')
termination_by es => (sizeOf es, 0)
decreasing_by
  all_goals simp [Prod.lex_def, pvPenalty] <;> omega

/-- `list(map(recursive, value))`: each element reduced at the *same*
level. -/
def reduceList (convert_instances convert_datetime : Bool)
    (level max_depth : Nat) (fallback : Option (PyValue → PyValue)) :
    List PyValue → Except String (List PyValue)
  | [] => Except.ok []
  | x :: rest => do
      let x' ← to_primitive convert_instances convert_datetime level max_depth fallback x
      let rest' ← reduceList convert_instances convert_datetime level max_depth fallback rest
      Except.ok (x' :: rest')
termination_by xs => (sizeOf xs, 0)
decreasing_by
  all_goals simp [Prod.lex_def, pvPenalty] <;> omega

end

/-! ## msgpackutils: built-in handler payloads (UUIDHandler, SetHandler)

`UUIDHandler` (identity 0) and `SetHandler` (identity 4) are modelled at
the level of their payload maths: a `uuid.UUID` is its 128-bit integer,
a Python set of integers is a `Finset Int`.  `SetHandler` routes its
payload through `dumps`/`loads` of the underlying msgpack library, which
are mutually inverse on native values (lists of integers); the byte
encoding step is therefore modelled as the identity on the list. -/

/-- `UUIDHandler.serialize(obj) = str(obj.hex).encode('ascii')`: the 32
lowercase hexadecimal digits of the uuid's 128-bit integer, as an ascii
character list. -/
def UUIDHandler_serialize (n : Nat) : List Char :=
  padHexDigits 32 n

/-- `UUIDHandler.deserialize(data) = uuid.UUID(hex=str(data,
encoding='ascii'))`: `uuid.UUID(hex=...)` requires exactly 32
hexadecimal digits and rebuilds the integer from them (serialize only
emits lowercase digits, so only those need to be accepted). -/
def UUIDHandler_deserialize (s : List Char) : Option Nat :=
  if s.length = 32 ∧ s.all isLowerHexDigit then
    some (s.foldl (fun acc c => acc * 16 + hexCharVal c) 0)
  else Option.none

/-- `list(obj)` for a Python set of integers: an enumeration of the
elements (set iteration order is hash-table dependent; modelled as the
sorted enumeration — the round trip is independent of the order). -/
def pySetToList (s : Finset Int) : List Int :=
  s.sort (· ≤ ·)

/-- `SetHandler.serialize(obj) = dumps(list(obj), registry)`: a list of
integers is packed natively, and `loads` is its inverse, so the payload
is modelled as the enumerated list itself. -/
def SetHandler_serialize (s : Finset Int) : List Int :=
  pySetToList s

/-- `SetHandler.deserialize(data) = set(loads(data, registry))`. -/
def SetHandler_deserialize (l : List Int) : Finset Int :=
  l.toFinset

/-! ## jsonutils: full reduction of native-only structures (for the
depth-accounting claim) -/

mutual

/-- The complete (depth-unbounded) reduction of a value built solely of
simple values, native dicts and native lists: simple values unchanged,
containers rebuilt from reduced contents.  Only specified on such
values (`nativeOnly`). -/
def reduceNative : PyValue → PyValue
  | .dict es => .dict (reduceNativeEntries es)
  | .list xs => .list (reduceNativeList xs)
  | v => v

/-- `reduceNative` over dict entries. -/
def reduceNativeEntries : List (PyValue × PyValue) → List (PyValue × PyValue)
  | [] => []
  | (k, v) :: rest => (reduceNative k, reduceNative v) :: reduceNativeEntries rest

/-- `reduceNative` over list elements. -/
def reduceNativeList : List PyValue → List PyValue
  | [] => []
  | x :: rest => reduceNative x :: reduceNativeList rest

end

mutual

/-- Is the value built solely of simple values (`None`, bools, ints,
strings), native dicts and native lists? -/
def nativeOnly : PyValue → Bool
  | .none => true
  | .bool _ => true
  | .int _ => true
  | .str _ => true
  | .dict es => nativeOnlyEntries es
  | .list xs => nativeOnlyList xs
  | _ => false

/-- `nativeOnly` over dict entries. -/
def nativeOnlyEntries : List (PyValue × PyValue) → Bool
  | [] => true
  | (k, v) :: rest => nativeOnly k && nativeOnly v && nativeOnlyEntries rest

/-- `nativeOnly` over list elements. -/
def nativeOnlyList : List PyValue → Bool
  | [] => true
  | x :: rest => nativeOnly x && nativeOnlyList rest

end

/-! ## Timestamp/date string patterns (for the datetime formatting
claim) -/

/-- Every character of `l` is a decimal digit. -/
def digitsOnly (l : List Char) : Prop :=
  ∀ c ∈ l, c.isDigit = true

/-- The string has the shape `YYYY-MM-DDTHH:MM:SS.ffffff`: 4-2-2 digit
date fields separated by dashes, a literal `T`, 2-2-2 digit time fields
separated by colons, a literal dot and 6 microsecond digits — and no
trailing timezone offset. -/
def matchesTimestampPattern (s : String) : Prop :=
  ∃ y mo d h mi sec us : List Char,
    y.length = 4 ∧ mo.length = 2 ∧ d.length = 2 ∧ h.length = 2 ∧
    mi.length = 2 ∧ sec.length = 2 ∧ us.length = 6 ∧
    digitsOnly y ∧ digitsOnly mo ∧ digitsOnly d ∧ digitsOnly h ∧
    digitsOnly mi ∧ digitsOnly sec ∧ digitsOnly us ∧
    s.data = y ++ '-' :: mo ++ '-' :: d ++ 'T' :: h ++ ':' :: mi ++
      ':' :: sec ++ '.' :: us

/-- The string has the shape `YYYY-MM-DD`. -/
def matchesDatePattern (s : String) : Prop :=
  ∃ y mo d : List Char,
    y.length = 4 ∧ mo.length = 2 ∧ d.length = 2 ∧
    digitsOnly y ∧ digitsOnly mo ∧ digitsOnly d ∧
    s.data = y ++ '-' :: mo ++ '-' :: d

/-! ## Concrete fixtures used by the witness theorems -/

/-- Total number of handler instances stored across all chains of the
registry dict (what `len(registry)` is documented to count). -/
def totalHandlerCount (d : List (Int × List Handler)) : Nat :=
  (d.map (fun p => p.2.length)).sum

/-- A sample handler claiming identity 1. -/
def sampleHandler : Handler :=
  { identity := 1, handles := ["datetime"],
    serialize := fun o => [o.payload],
    deserialize := fun b => { typeName := "datetime", payload := b.headD 0 } }

/-- A second, distinguishable handler also claiming identity 1 (used to
exercise override registration). -/
def sampleHandler2 : Handler :=
  { identity := 1, handles := ["datetime"],
    serialize := fun _ => [],
    deserialize := fun _ => { typeName := "datetime", payload := 0 } }

/-- An empty frozen registry. -/
def frozenRegistry : HandlerRegistry :=
  { handlers := [], num_handlers := 0, frozen := true }

/-- An unfrozen registry holding `sampleHandler` at identity 1. -/
def oneRegistry : HandlerRegistry :=
  { handlers := [(1, [sampleHandler])], num_handlers := 1, frozen := false }

/-- An object of the type `sampleHandler` handles. -/
def sampleObj : Obj :=
  { typeName := "datetime", payload := 7 }

/-- An object no handler of `oneRegistry` handles. -/
def unknownObj : Obj :=
  { typeName := "thing", payload := 0 }

/-- A nesting of four `items()`-accessor objects (like the
`LevelsGenerator` of the repository's depth test), with an integer at
the innermost position: the kind of structure whose nesting advances
the tracked depth. -/
def depthFourValue : PyValue :=
  .itemsObj [(.int 0, .itemsObj [(.int 0, .itemsObj [(.int 0,
    .itemsObj [(.int 0, .int 1)])])])]

/-! ## SetHandler on non-native elements (tuple payload degradation)

The `HandlerRegistry` docstring in the source records that the
underlying msgpack library cannot dump/load a tuple without converting
it to a list.  `SetHandler.serialize` therefore packs a set containing
tuples as an array of arrays, and `SetHandler.deserialize` —
`set(loads(data, registry))` — then raises `TypeError`, because the
decoded lists are unhashable and cannot populate a set.  The models
below extend the integer-set model with tuple elements to capture
this. -/

/-- An element of a Python set handed to `SetHandler`: an integer or a
tuple of integers. -/
inductive SetElem where
  | int (n : Int)
  | tuple (xs : List Int)
deriving DecidableEq

/-- An element as it comes back from the underlying packer's
`dumps`/`loads`: integers survive, tuples degrade to lists (the
limitation recorded in the source's registry docstring). -/
inductive PackedElem where
  | int (n : Int)
  | list (xs : List Int)
deriving DecidableEq

/-- One element through `dumps`/`loads` of the underlying packer. -/
def packElem : SetElem → PackedElem
  | .int n => .int n
  | .tuple xs => .list xs

/-- Is the decoded element unhashable (a list)? -/
def isUnhashable : PackedElem → Bool
  | .list _ => true
  | .int _ => false

/-- `set(elems)`: building a Python set raises `TypeError` when any
element is unhashable, and otherwise collects the distinct elements
(enumeration order abstracted away). -/
def pySetOf (l : List PackedElem) : Except String (List PackedElem) :=
  if l.any isUnhashable then
    Except.error "unhashable type: 'list'"
  else
    Except.ok l.dedup

/-- `SetHandler.serialize(obj) = dumps(list(obj), registry)` on a set
with arbitrary (also tuple) elements, with the packer's tuple-to-list
degradation. -/
def SetHandler_serializeAny (s : List SetElem) : List PackedElem :=
  s.map packElem

/-- `SetHandler.deserialize(data) = set(loads(data, registry))` on such
a payload. -/
def SetHandler_deserializeAny (l : List PackedElem) :
    Except String (List PackedElem) :=
  pySetOf l

/-! # Theorems -/

/-! ## Evaluation helpers -/

/-- `Except.ok` bind reduction (used to evaluate the reducer). -/
@[simp] theorem except_ok_bind {ε α β : Type} (a : α) (f : α → Except ε β) :
    (Except.ok a : Except ε α) >>= f = f a := rfl

/-- `Except.error` bind reduction (errors propagate). -/
@[simp] theorem except_error_bind {ε α β : Type} (e : ε) (f : α → Except ε β) :
    (Except.error e : Except ε α) >>= f = Except.error e := rfl

/-- Updating an existing key of the dict replaces exactly what `get`
sees at that key. -/
theorem dictGet_dictSet_self (d : List (Int × List Handler)) (k : Int)
    (v : List Handler) :
    (dictGet d k).isSome = true → dictGet (dictSet d k v) k = some v := by
  induction d with
  | nil => simp [dictGet]
  | cons p rest ih =>
    obtain ⟨k', v'⟩ := p
    by_cases hk : k' = k
    · simp [dictGet, dictSet, hk]
    · simp only [dictGet, dictSet, hk, if_false, ite_false]
      simpa [hk] using ih

/-- Prepending one handler to an existing chain grows the total stored
handler-instance count by exactly one. -/
theorem totalHandlerCount_dictSet_cons (d : List (Int × List Handler)) (k : Int)
    (h : Handler) (l : List Handler) :
    dictGet d k = some l →
      totalHandlerCount (dictSet d k (h :: l)) = totalHandlerCount d + 1 := by
  induction d with
  | nil => simp [dictGet]
  | cons p rest ih =>
    obtain ⟨k', v'⟩ := p
    by_cases hk : k' = k
    · intro hget
      simp [dictGet, hk] at hget
      subst hget
      simp [dictSet, hk, totalHandlerCount]
      omega
    · intro hget
      simp [dictGet, hk] at hget
      have := ih hget
      simp [dictSet, hk, totalHandlerCount] at this ⊢
      omega

/-! ## Claim C1 -/

/-- C1: `HandlerRegistry.register(handler, reserved, override)` fails
precisely when the registry is frozen, or `handler.identity` lies
outside the applicable inclusive range (0–32 for `reserved=true`, 33–127
for `reserved=false`), or the identity already has registered handlers
and `override` is false; and every failure leaves the registry (handler
mapping, handler count and frozen flag) unchanged — otherwise the
registration succeeds. -/
theorem C1_register_fails_iff (r : HandlerRegistry) (handler : Handler)
    (reserved override : Bool) :
    ((r.register handler reserved override).2.isSome = true ↔
      (r.frozen = true ∨
        (reserved = true ∧ (handler.identity < 0 ∨ 32 < handler.identity)) ∨
        (reserved = false ∧ (handler.identity < 33 ∨ 127 < handler.identity)) ∨
        (r.containsId handler.identity = true ∧ override = false))) ∧
    ((r.register handler reserved override).2.isSome = true →
      (r.register handler reserved override).1 = r) := by
  rcases hg : dictGet r.handlers handler.identity with _ | l <;>
    cases hf : r.frozen <;> cases reserved <;> cases override <;>
    simp [HandlerRegistry.register, HandlerRegistry.containsId, hg, hf,
      reservedMin, reservedMax, nonReservedMin, nonReservedMax] <;>
    split_ifs <;> simp_all

/-- Witness for C1: registering into a frozen registry fails and leaves
it unchanged. -/
theorem C1_register_fails_iff_witness :
    (frozenRegistry.register sampleHandler false false).2.isSome = true ∧
    (frozenRegistry.register sampleHandler false false).1 = frozenRegistry := by
  have t := C1_register_fails_iff frozenRegistry sampleHandler false false
  have herr := t.1.mpr (Or.inl rfl)
  exact ⟨herr, t.2 herr⟩

/-! ## Claim C2 -/

/-- C2: on an unfrozen registry holding a chain `hOld :: hs` at
identity `i` (with `i` in the handler identity space 0–127 and the
`reserved` flag selecting the range containing `i`), registering a new
handler of identity `i` with `override=true` succeeds, makes `get i`
return the new handler, retains the old chain behind it, and grows both
`len(registry)` and the total count of stored handler instances across
all override chains by exactly 1. -/
theorem C2_override_prepends (r : HandlerRegistry) (i : Int)
    (hOld hNew : Handler) (hs : List Handler)
    (hfz : r.frozen = false)
    (hlook : dictGet r.handlers i = some (hOld :: hs))
    (hid : hNew.identity = i) (h0 : 0 ≤ i) (h127 : i ≤ 127) :
    (r.register hNew (decide (i ≤ 32)) true).2 = Option.none ∧
    (r.register hNew (decide (i ≤ 32)) true).1.get i = some hNew ∧
    dictGet (r.register hNew (decide (i ≤ 32)) true).1.handlers i =
      some (hNew :: hOld :: hs) ∧
    (r.register hNew (decide (i ≤ 32)) true).1.length = r.length + 1 ∧
    totalHandlerCount (r.register hNew (decide (i ≤ 32)) true).1.handlers =
      totalHandlerCount r.handlers + 1 := by
  have hset := dictGet_dictSet_self r.handlers i (hNew :: hOld :: hs)
    (by simp [hlook])
  have htot := totalHandlerCount_dictSet_cons r.handlers i hNew (hOld :: hs) hlook
  by_cases h32 : i ≤ 32 <;>
    simp [HandlerRegistry.register, HandlerRegistry.get, HandlerRegistry.length,
      h32, hfz, hid, hlook, hset, reservedMin, reservedMax, nonReservedMin,
      nonReservedMax, h0, h127] <;>
    rw [if_neg (by omega), if_neg (by omega)] <;>
    simp [hset, htot]

/-- Witness for C2: overriding the handler at identity 1 of a concrete
one-handler registry. -/
theorem C2_override_prepends_witness :
    (oneRegistry.register sampleHandler2 (decide ((1 : Int) ≤ 32)) true).2 =
      Option.none ∧
    (oneRegistry.register sampleHandler2 (decide ((1 : Int) ≤ 32)) true).1.get 1 =
      some sampleHandler2 ∧
    dictGet (oneRegistry.register sampleHandler2 (decide ((1 : Int) ≤ 32))
        true).1.handlers 1 = some (sampleHandler2 :: sampleHandler :: []) ∧
    (oneRegistry.register sampleHandler2 (decide ((1 : Int) ≤ 32)) true).1.length =
      oneRegistry.length + 1 ∧
    totalHandlerCount (oneRegistry.register sampleHandler2
        (decide ((1 : Int) ≤ 32)) true).1.handlers =
      totalHandlerCount oneRegistry.handlers + 1 :=
  C2_override_prepends oneRegistry 1 sampleHandler sampleHandler2 [] rfl rfl rfl
    (by decide) (by decide)

/-! ## Claim C3 -/

/-- C3: once the tracked depth exceeds `max_depth`, `to_primitive`
returns null for every value that reaches the depth check (dicts,
items-accessor objects, instances and iterables) — a truncation, not an
error; concretely, the depth-4 items-accessor nesting reduced with
`max_depth=2` truncates at exactly depth 2 to null, while with
`max_depth=4` the full structure survives with no truncation. -/
theorem C3_depth_truncation (ci cd : Bool) (level maxd : Nat)
    (fb : Option (PyValue → PyValue)) (es : List (PyValue × PyValue))
    (xs : List PyValue) (hdeep : maxd < level) :
    (to_primitive ci cd level maxd fb (.dict es) = Except.ok .none ∧
     to_primitive ci cd level maxd fb (.itemsObj es) = Except.ok .none ∧
     to_primitive ci cd level maxd fb (.inst es) = Except.ok .none ∧
     to_primitive ci cd level maxd fb (.list xs) = Except.ok .none) ∧
    to_primitive false true 0 2 Option.none depthFourValue =
      Except.ok (.dict [(.int 0, .dict [(.int 0, .none)])]) ∧
    to_primitive false true 0 4 Option.none depthFourValue =
      Except.ok
        (.dict [(.int 0, .dict [(.int 0, .dict [(.int 0,
          .dict [(.int 0, .int 1)])])])]) := by
  refine ⟨⟨?_, ?_, ?_, ?_⟩, ?_, ?_⟩
  · simp [to_primitive, hdeep]
  · simp [to_primitive, hdeep]
  · rcases fb with _ | f <;> simp [to_primitive, hdeep]
  · simp [to_primitive, hdeep]
  · simp [depthFourValue, to_primitive, reduceEntries]
  · simp [depthFourValue, to_primitive, reduceEntries]

/-- Witness for C3: a dict at level 3 with `max_depth = 2` reduces to
null, and the concrete depth-4 example evaluates as stated. -/
theorem C3_depth_truncation_witness :
    to_primitive false true 3 2 Option.none (.dict [(.str "a", .int 1)]) =
      Except.ok .none ∧
    to_primitive false true 0 2 Option.none depthFourValue =
      Except.ok (.dict [(.int 0, .dict [(.int 0, .none)])]) := by
  have t := C3_depth_truncation false true 3 2 Option.none
    [(.str "a", .int 1)] [] (by decide)
  exact ⟨t.1.1, t.2.1⟩

/-! ## Claim C4 -/

/-- Decoding a lowercase hexadecimal digit character undoes encoding. -/
theorem hexCharVal_hexDigitChar (d : Nat) (h : d < 16) :
    hexCharVal (hexDigitChar d) = d := by
  interval_cases d <;> decide

/-- Encoded hexadecimal digits are lowercase hexadecimal digit
characters. -/
theorem isLowerHexDigit_hexDigitChar (d : Nat) (h : d < 16) :
    isLowerHexDigit (hexDigitChar d) = true := by
  interval_cases d <;> decide

/-- `padHexDigits w n` has exactly `w` characters. -/
theorem padHexDigits_length (w n : Nat) : (padHexDigits w n).length = w := by
  induction w generalizing n with
  | zero => simp [padHexDigits]
  | succ w ih => simp [padHexDigits, ih]

/-- Every character of `padHexDigits` is a lowercase hexadecimal
digit. -/
theorem padHexDigits_all_hex (w n : Nat) :
    (padHexDigits w n).all isLowerHexDigit = true := by
  induction w generalizing n with
  | zero => simp [padHexDigits]
  | succ w ih =>
    simp only [padHexDigits, List.all_append, Bool.and_eq_true]
    exact ⟨ih (n / 16),
      by simp [isLowerHexDigit_hexDigitChar (n % 16) (Nat.mod_lt _ (by norm_num))]⟩

/-- Folding the hexadecimal digits of `n < 16 ^ w` back into a number
recovers `n` (with the accumulator shifted past the emitted digits). -/
theorem padHexDigits_foldl (w n acc : Nat) (h : n < 16 ^ w) :
    (padHexDigits w n).foldl (fun a c => a * 16 + hexCharVal c) acc =
      acc * 16 ^ w + n := by
  induction w generalizing n acc with
  | zero =>
    have : n = 0 := by simpa using Nat.lt_one_iff.mp (by simpa using h)
    simp [padHexDigits, this]
  | succ w ih =>
    have hdiv : n / 16 < 16 ^ w := by
      rw [Nat.div_lt_iff_lt_mul (by norm_num)]
      rw [pow_succ] at h
      exact h
    rw [padHexDigits, List.foldl_append, ih (n / 16) acc hdiv]
    simp only [List.foldl_cons, List.foldl_nil]
    rw [hexCharVal_hexDigitChar (n % 16) (Nat.mod_lt _ (by norm_num))]
    rw [pow_succ, ← Nat.mul_assoc]
    generalize acc * 16 ^ w = A
    omega

/-- C4 (amended): the round-trip law holds per handler on the payloads
the claim exhibits, not universally over every default-registry handler
and every handled value: every 128-bit uuid integer comes back
unchanged through `UUIDHandler` (identity 0), every *integer* set comes
back equal through `SetHandler` (identity 4) regardless of enumeration
order, and in particular the set `{1, 2, 3}` round-trips to an equal
set.  (The unrestricted law is refuted by
`C4_handler_roundtrip_counterexample`.) -/
theorem C4_handler_roundtrip :
    (∀ n : Nat, n < 2 ^ 128 →
      UUIDHandler_deserialize (UUIDHandler_serialize n) = some n) ∧
    (∀ s : Finset Int, SetHandler_deserialize (SetHandler_serialize s) = s) ∧
    SetHandler_deserialize (SetHandler_serialize {1, 2, 3}) =
      ({1, 2, 3} : Finset Int) := by
  have hset : ∀ s : Finset Int,
      SetHandler_deserialize (SetHandler_serialize s) = s := by
    intro s
    simp [SetHandler_deserialize, SetHandler_serialize, pySetToList,
      Finset.sort_toFinset]
  refine ⟨?_, hset, hset _⟩
  intro n hn
  have h16 : n < 16 ^ 32 := by
    have : (16 : Nat) ^ 32 = 2 ^ 128 := by norm_num
    omega
  unfold UUIDHandler_deserialize UUIDHandler_serialize
  rw [if_pos ⟨padHexDigits_length 32 n, padHexDigits_all_hex 32 n⟩]
  rw [padHexDigits_foldl 32 n 0 h16]
  simp

/-- Witness for C4: a concrete uuid integer round-trips. -/
theorem C4_handler_roundtrip_witness :
    UUIDHandler_deserialize (UUIDHandler_serialize 123456789) = some 123456789 :=
  C4_handler_roundtrip.1 123456789 (by norm_num)

/-- C4 counterexample: the claim's universal round-trip law fails on
the code.  The set `{(1, 2)}` is a `set`, hence in `SetHandler`'s
`handles` domain; `serialize` packs its tuple element as an array (the
tuple-to-list degradation recorded in the source's registry docstring),
and `deserialize` — `set(loads(data, registry))` — then raises
`TypeError: unhashable type: 'list'` instead of returning a value equal
to the original set. -/
theorem C4_handler_roundtrip_counterexample :
    SetHandler_deserializeAny (SetHandler_serializeAny [SetElem.tuple [1, 2]]) =
      Except.error "unhashable type: 'list'" := rfl

/-! ## Claim C5 -/

/-- C5: the binary-encode hook `_serializer` fails, with an error naming
the value's runtime type, exactly when `registry.match` finds no
handler; when a handler matches, the result is an extension record
tagged with that handler's identity and carrying its serialized
output. -/
theorem C5_serializer_no_handler (reg : HandlerRegistry) (obj : Obj) :
    (reg.matchObj obj = Option.none →
      msgSerializer reg obj =
        Except.error
          ("No serialization handler registered for type '" ++
            obj.typeName ++ "'")) ∧
    (∀ h, reg.matchObj obj = some h →
      msgSerializer reg obj =
        Except.ok { code := h.identity, data := h.serialize obj }) ∧
    ((∃ e, msgSerializer reg obj = Except.error e) ↔
      reg.matchObj obj = Option.none) := by
  rcases hm : reg.matchObj obj with _ | h <;> simp [msgSerializer, hm]

/-- Witness for C5: no handler matches `unknownObj` in the empty
registry (error naming the type), while `sampleObj` is wrapped as an
extension record by `oneRegistry`. -/
theorem C5_serializer_no_handler_witness :
    msgSerializer HandlerRegistry.empty unknownObj =
      Except.error
        ("No serialization handler registered for type '" ++
          unknownObj.typeName ++ "'") ∧
    msgSerializer oneRegistry sampleObj =
      Except.ok { code := sampleHandler.identity,
                  data := sampleHandler.serialize sampleObj } :=
  ⟨(C5_serializer_no_handler HandlerRegistry.empty unknownObj).1 rfl,
   (C5_serializer_no_handler oneRegistry sampleObj).2.1 sampleHandler rfl⟩

/-! ## Claim C6 -/

/-- C6: the binary-decode hook `_unserializer` never fails: an
extension record whose identity has no handler in the registry is
returned verbatim as an opaque `ExtType` (identity and payload
preserved), while a known identity is routed to its handler's
deserializer. -/
theorem C6_unknown_ext_passthrough (reg : HandlerRegistry) (code : Int)
    (data : List Nat) :
    (reg.get code = Option.none →
      msgUnserializer reg code data = Decoded.ext { code := code, data := data }) ∧
    (∀ h, reg.get code = some h →
      msgUnserializer reg code data = Decoded.obj (h.deserialize data)) := by
  rcases hg : reg.get code with _ | h <;> simp [msgUnserializer, hg]

/-- Witness for C6: identity 50 is unknown to the empty registry and
passes through verbatim; identity 1 is known to `oneRegistry` and is
deserialized. -/
theorem C6_unknown_ext_passthrough_witness :
    msgUnserializer HandlerRegistry.empty 50 [1, 2] =
      Decoded.ext { code := 50, data := [1, 2] } ∧
    msgUnserializer oneRegistry 1 [9] =
      Decoded.obj (sampleHandler.deserialize [9]) :=
  ⟨(C6_unknown_ext_passthrough HandlerRegistry.empty 50 [1, 2]).1 rfl,
   (C6_unknown_ext_passthrough oneRegistry 1 [9]).2 sampleHandler rfl⟩

/-! ## Claim C7 -/

/-- C7: an `itertools.count` value is routed to the fallback before any
depth check or iterable handling (the result is independent of `level`
and `max_depth` and the value is never materialized): with no fallback
supplied the result is the counter's string form, with a fallback `f`
it is `f` applied to the counter, returned verbatim; no error is raised
in either case. -/
theorem C7_count_fallback (start step : Int) (ci cd : Bool)
    (level maxd : Nat) :
    to_primitive ci cd level maxd Option.none (.count start step) =
      Except.ok (.str (countRepr start step)) ∧
    ∀ f, to_primitive ci cd level maxd (some f) (.count start step) =
      Except.ok (f (.count start step)) := by
  constructor <;> (intros; simp [to_primitive, defaultedFallback, pyStr])

/-! ## Claim C8 -/

/-- C8: a value that exhausts every classification rule (an instance
with attribute storage, reduced with `convert_instances=false`, below
the depth ceiling) makes `to_primitive` fail with the `Cannot convert
... to primitive` ValueError when no fallback was supplied, and return
`fallback(value)` verbatim when one was. -/
theorem C8_unconvertible_value (attrs : List (PyValue × PyValue)) (cd : Bool)
    (level maxd : Nat) (hlev : level ≤ maxd) :
    to_primitive false cd level maxd Option.none (.inst attrs) =
      Except.error ("Cannot convert " ++ pyRepr (.inst attrs) ++ " to primitive") ∧
    ∀ f, to_primitive false cd level maxd (some f) (.inst attrs) =
      Except.ok (f (.inst attrs)) := by
  constructor <;>
    (intros; simp [to_primitive, cannotConvertMsg, Nat.not_lt.mpr hlev])

/-- Witness for C8: the default-configuration reduction of a plain
instance raises the ValueError. -/
theorem C8_unconvertible_value_witness :
    to_primitive false true 0 3 Option.none (.inst []) =
      Except.error ("Cannot convert " ++ pyRepr (.inst []) ++ " to primitive") :=
  (C8_unconvertible_value [] true 0 3 (by decide)).1

/-! ## Claim C9 -/

/-- `padDigits w n` has exactly `w` characters. -/
theorem padDigits_length (w n : Nat) : (padDigits w n).length = w := by
  induction w generalizing n with
  | zero => simp [padDigits]
  | succ w ih => simp [padDigits, ih]

/-- Every character of `padDigits` is a decimal digit. -/
theorem padDigits_digitsOnly (w n : Nat) : digitsOnly (padDigits w n) := by
  induction w generalizing n with
  | zero => simp [padDigits, digitsOnly]
  | succ w ih =>
    intro c hc
    simp only [padDigits, List.mem_append, List.mem_singleton] at hc
    rcases hc with h | h
    · exact ih (n / 10) c h
    · subst h
      have h10 : n % 10 < 10 := Nat.mod_lt _ (by norm_num)
      generalize n % 10 = d at h10 ⊢
      interval_cases d <;> decide

/-- The `PERFECT_TIME_FORMAT` rendering always has the
`YYYY-MM-DDTHH:MM:SS.ffffff` shape. -/
theorem perfectTime_matches (dt : PyDateTime) :
    matchesTimestampPattern (perfectTimeFormat dt) := by
  refine ⟨padDigits 4 dt.year, padDigits 2 dt.month, padDigits 2 dt.day,
    padDigits 2 dt.hour, padDigits 2 dt.minute, padDigits 2 dt.second,
    padDigits 6 dt.microsecond,
    padDigits_length _ _, padDigits_length _ _, padDigits_length _ _,
    padDigits_length _ _, padDigits_length _ _, padDigits_length _ _,
    padDigits_length _ _,
    padDigits_digitsOnly _ _, padDigits_digitsOnly _ _, padDigits_digitsOnly _ _,
    padDigits_digitsOnly _ _, padDigits_digitsOnly _ _, padDigits_digitsOnly _ _,
    padDigits_digitsOnly _ _, ?_⟩
  simp [perfectTimeFormat, padNum, String.data_append]

/-- The `_ISO8601_DATE_FORMAT` rendering always has the `YYYY-MM-DD`
shape. -/
theorem isoDate_matches (d : PyDate) : matchesDatePattern (isoDateFormat d) := by
  refine ⟨padDigits 4 d.year, padDigits 2 d.month, padDigits 2 d.day,
    padDigits_length _ _, padDigits_length _ _, padDigits_length _ _,
    padDigits_digitsOnly _ _, padDigits_digitsOnly _ _,
    padDigits_digitsOnly _ _, ?_⟩
  simp [isoDateFormat, padNum, String.data_append]

/-- C9: with `convert_datetime=true` a timestamp reduces to its
`YYYY-MM-DDTHH:MM:SS.ffffff` string (microsecond precision, no timezone
offset — the format string has no offset directive) and with
`convert_datetime=false` it passes through unchanged; a date-only value
reduces to its `YYYY-MM-DD` string or passes through unchanged,
respectively. -/
theorem C9_datetime_formatting (dt : PyDateTime) (d : PyDate) (ci : Bool)
    (level maxd : Nat) (fb : Option (PyValue → PyValue)) :
    (to_primitive ci true level maxd fb (.datetime dt) =
        Except.ok (.str (perfectTimeFormat dt)) ∧
      matchesTimestampPattern (perfectTimeFormat dt)) ∧
    to_primitive ci false level maxd fb (.datetime dt) =
      Except.ok (.datetime dt) ∧
    (to_primitive ci true level maxd fb (.date d) =
        Except.ok (.str (isoDateFormat d)) ∧
      matchesDatePattern (isoDateFormat d)) ∧
    to_primitive ci false level maxd fb (.date d) = Except.ok (.date d) := by
  exact ⟨⟨by simp [to_primitive], perfectTime_matches dt⟩,
    by simp [to_primitive],
    ⟨by simp [to_primitive], isoDate_matches d⟩,
    by simp [to_primitive]⟩

/-! ## Claim C10 -/

/-- Values built solely of simple values, native dicts and native lists
are reduced completely — the recursion never increments the level for
them, so the result is the full structural reduction, independent of
`level` and `max_depth` (as long as the call starts below the
ceiling). -/
theorem to_primitive_nativeOnly_aux :
    ∀ (N : Nat) (v : PyValue), sizeOf v ≤ N → nativeOnly v = true →
      ∀ (ci cd : Bool) (level maxd : Nat) (fb : Option (PyValue → PyValue)),
        level ≤ maxd →
        to_primitive ci cd level maxd fb v = Except.ok (reduceNative v) := by
  intro N
  induction N with
  | zero =>
    intro v hsz
    exfalso
    cases v <;> simp at hsz
  | succ N IH =>
    intro v hsz hnat ci cd level maxd fb hlev
    cases v with
    | none => simp [to_primitive, reduceNative]
    | bool b => simp [to_primitive, reduceNative]
    | int n => simp [to_primitive, reduceNative]
    | str s => simp [to_primitive, reduceNative]
    | bytes s => simp [nativeOnly] at hnat
    | datetime dt => simp [nativeOnly] at hnat
    | date d => simp [nativeOnly] at hnat
    | uuid n => simp [nativeOnly] at hnat
    | exc r => simp [nativeOnly] at hnat
    | count a b => simp [nativeOnly] at hnat
    | itemsObj es => simp [nativeOnly] at hnat
    | inst attrs => simp [nativeOnly] at hnat
    | dict es =>
      have hes : nativeOnlyEntries es = true := by simpa [nativeOnly] using hnat
      have hszes : sizeOf es ≤ N := by simp at hsz; omega
      have key : ∀ es', sizeOf es' ≤ sizeOf es → nativeOnlyEntries es' = true →
          reduceEntries ci cd level maxd fb es' =
            Except.ok (reduceNativeEntries es') := by
        intro es'
        induction es' with
        | nil => intro _ _; simp [reduceEntries, reduceNativeEntries]
        | cons p rest ihr =>
          obtain ⟨k, v'⟩ := p
          intro hsz' hn'
          simp only [nativeOnlyEntries, Bool.and_eq_true] at hn'
          have hszk : sizeOf k ≤ N := by simp at hsz'; omega
          have hszv : sizeOf v' ≤ N := by simp at hsz'; omega
          have hszr : sizeOf rest ≤ sizeOf es := by simp at hsz'; omega
          have hk := IH k hszk hn'.1.1 ci cd level maxd fb hlev
          have hv := IH v' hszv hn'.1.2 ci cd level maxd fb hlev
          have hr := ihr hszr hn'.2
          simp [reduceEntries, reduceNativeEntries, hk, hv, hr]
      have hred := key es le_rfl hes
      simp [to_primitive, reduceNative, hred, Nat.not_lt.mpr hlev]
    | list xs =>
      have hxs : nativeOnlyList xs = true := by simpa [nativeOnly] using hnat
      have hszxs : sizeOf xs ≤ N := by simp at hsz; omega
      have key : ∀ xs', sizeOf xs' ≤ sizeOf xs → nativeOnlyList xs' = true →
          reduceList ci cd level maxd fb xs' =
            Except.ok (reduceNativeList xs') := by
        intro xs'
        induction xs' with
        | nil => intro _ _; simp [reduceList, reduceNativeList]
        | cons x rest ihr =>
          intro hsz' hn'
          simp only [nativeOnlyList, Bool.and_eq_true] at hn'
          have hszx : sizeOf x ≤ N := by simp at hsz'; omega
          have hszr : sizeOf rest ≤ sizeOf xs := by simp at hsz'; omega
          have hx := IH x hszx hn'.1 ci cd level maxd fb hlev
          have hr := ihr hszr hn'.2
          simp [reduceList, reduceNativeList, hx, hr]
      have hred := key xs le_rfl hxs
      simp [to_primitive, reduceNative, hred, Nat.not_lt.mpr hlev]

/-- C10: dict and list recursion reuse the current level (so structures
built solely of native dicts and lists are fully reduced and never
truncated to null, whatever `max_depth` is), while the items-accessor
and instance conversions recurse on the freshly built dict with the
level incremented by exactly 1. -/
theorem C10_level_accounting :
    (∀ v, nativeOnly v = true →
      ∀ (ci cd : Bool) (level maxd : Nat) (fb : Option (PyValue → PyValue)),
        level ≤ maxd →
        to_primitive ci cd level maxd fb v = Except.ok (reduceNative v)) ∧
    (∀ (ci cd : Bool) (level maxd : Nat) (fb : Option (PyValue → PyValue))
        (es : List (PyValue × PyValue)), level ≤ maxd →
      to_primitive ci cd level maxd fb (.itemsObj es) =
        to_primitive ci cd (level + 1) maxd fb (.dict es)) ∧
    (∀ (cd : Bool) (level maxd : Nat) (fb : Option (PyValue → PyValue))
        (attrs : List (PyValue × PyValue)), level ≤ maxd →
      to_primitive true cd level maxd fb (.inst attrs) =
        to_primitive true cd (level + 1) maxd fb (.dict attrs)) := by
  refine ⟨fun v hv ci cd level maxd fb hlev =>
      to_primitive_nativeOnly_aux (sizeOf v) v le_rfl hv ci cd level maxd fb hlev,
    ?_, ?_⟩
  · intro ci cd level maxd fb es h
    simp [to_primitive, Nat.not_lt.mpr h]
  · intro cd level maxd fb attrs h
    rcases fb with _ | f <;> simp [to_primitive, Nat.not_lt.mpr h]

/-- Witness for C10: a native dict is fully reduced even with
`max_depth = 0`. -/
theorem C10_level_accounting_witness :
    to_primitive false true 0 0 Option.none (.dict [(.str "a", .int 1)]) =
      Except.ok (reduceNative (.dict [(.str "a", .int 1)])) :=
  C10_level_accounting.1 (.dict [(.str "a", .int 1)])
    (by simp [nativeOnly, nativeOnlyEntries]) false true 0 0 Option.none
    (by decide)
